import Mathlib

set_option maxHeartbeats 1000000

/-!
Shallow embedding of the `lofcz/ungoogled-chromium` developer tooling:

* `src/devutils/update_lists_patch.py` — a pure text patcher that inserts
  extra pruning patterns into `update_lists.py`; embedded here as a function
  on `List Char` (Python file content), with Python `str.find` modelled by
  `pyFind`.
* `src/buildkit/cli.py` — the buildkit command-line layer.  The buildkit
  core modules it calls (`buildkit.config`, `buildkit.source_retrieval`,
  `buildkit.common`) are not part of the repository snapshot, so those
  operations are modelled from `spec.md` (each such definition is marked
  `Modelled from the spec:`); the CLI dispatch, the per-command callbacks,
  their exception-to-message translation and the exit-status handling are
  translated directly from `cli.py`.
-/

namespace UC

/-! ## Definitions

First the embedding of `src/devutils/update_lists_patch.py` over
`List Char` file content, then the buildkit data model and the
`src/buildkit/cli.py` layer together with the spec-modelled core
operations it calls, then the concrete inputs used by the witnesses. -/

/-- Model of Python `str.find(needle)` on list-of-char file content:
returns the least index at which `need` occurs in `hay` (leftmost match),
or `none` when there is no occurrence (Python returns `-1`). -/
def pyFind (need : List Char) : List Char → Option Nat
  | [] => if need.isPrefixOf [] then some 0 else none
  | c :: t => if need.isPrefixOf (c :: t) then some 0 else (pyFind need t).map (· + 1)

/-- Model of the Python slice `l[a:b]` (for `0 ≤ a ≤ b ≤ len l`). -/
def pySlice (l : List Char) (a b : Nat) : List Char :=
  (l.drop a).take (b - a)

/-- Model of the Python substring test `need in hay`. -/
def isSubstrOf (need hay : List Char) : Bool :=
  (pyFind need hay).isSome

/-- The single-quote character the Python source uses when quoting
patterns. -/
def sq : Char := '\''

/-- The marker `add_patterns_to_file` searches for first. -/
def PRUNING_MARKER : List Char := "PRUNING_EXCLUDE_PATTERNS = [".data

/-- The closing bracket terminating the pattern list. -/
def closeBracket : Char := ']'

/-- The five extra pruning patterns (`new_patterns` in the source). -/
def new_patterns : List (List Char) :=
  ["*.tflite".data, "*.binarypb".data, "*.pb".data, "*.pbtxt.gz".data, "*.bin".data]

/-- The quoted form of a pattern, used by the membership test in the
source. -/
def quoted (p : List Char) : List Char := sq :: (p ++ [sq])

/-- The line inserted for one missing pattern: four spaces, the quoted
pattern, a comma and a newline. -/
def patternLine (p : List Char) : List Char :=
  [' ', ' ', ' ', ' '] ++ quoted p ++ [',', '\n']

/-- The Python local `current_list = content[start_idx:end_idx+1]`, where
`end_idx = start_idx + k` is the absolute index of the closing bracket
(`k` its offset relative to `start_idx`). -/
def currentList (content : List Char) (start_idx k : Nat) : List Char :=
  pySlice content start_idx (start_idx + k + 1)

/-- The Python local `patterns_to_add`: one `patternLine` for each of the
five patterns whose quoted form does not occur in `current_list`, in
source order. -/
def patternsToAdd (content : List Char) (start_idx k : Nat) : List (List Char) :=
  (new_patterns.filter
    (fun p => !(isSubstrOf (quoted p) (currentList content start_idx k)))).map patternLine

/-- `add_patterns_to_file` from `src/devutils/update_lists_patch.py`, as
the pure content transformation it performs on `update_lists.py`: `none`
means the function returns without writing the file (marker not found,
closing bracket not found, or nothing to add), `some c` means it writes
the new content `c`.  `pyFind [closeBracket] (content.drop start_idx)` is
the offset of the bracket relative to `start_idx`, so `start_idx + k`
matches the absolute `end_idx = content.find(']', start_idx)` of the
source. -/
def add_patterns_to_file (content : List Char) : Option (List Char) :=
  match pyFind PRUNING_MARKER content with
  | none => none
  | some start_idx =>
    match pyFind [closeBracket] (content.drop start_idx) with
    | none => none
    | some k =>
      if (patternsToAdd content start_idx k).isEmpty then none
      else some (content.take (start_idx + k) ++ (patternsToAdd content start_idx k).flatten
                   ++ content.drop (start_idx + k))

/-- One run of `add_patterns_to_file` seen as a file transformer: the
resulting file content (unchanged when nothing is written). -/
def applyOnce (content : List Char) : List Char :=
  (add_patterns_to_file content).getD content

/-- Status of one filesystem path. -/
inductive PathStatus
  | absent
  | regularFile (hash : Nat)
  | directory
  | otherKind
deriving DecidableEq, Repr

/-- Flat model of the relevant filesystem state: earlier entries shadow
later ones, missing entries are absent. -/
abbrev FS := List (String × PathStatus)

def pathStatus (fs : FS) (p : String) : PathStatus :=
  match fs.find? (fun e => e.1 == p) with
  | some e => e.2
  | none => PathStatus.absent

def setPath (fs : FS) (p : String) (st : PathStatus) : FS :=
  (p, st) :: fs

/-- The Python exception types that cross the cli.py boundary. -/
inductive PyError
  | fileExists (path : String)
  | fileNotFound (path : String)
  | notADirectory (path : String)
  | notAFile (path : String)
  | hashMismatch (path : String)
  | valueError (msg : String)
  | otherError (msg : String)
deriving DecidableEq, Repr

/-- Modelled from the spec: a RetrievalTarget (spec.md section 3) — one
concrete artifact to fetch, with its recorded hash and destination. -/
structure RetrievalTarget where
  url : String
  expectedHash : Nat
  destPath : String
  stripCount : Nat
deriving DecidableEq, Repr

/-- Modelled from the spec: a resolved ConfigBundle (spec.md section 3) —
the dependency order root-to-leaf, the merged retrieval targets, and
whether the merged metadata satisfies every constraint. -/
structure ConfigBundle where
  depOrder : List String
  targets : List RetrievalTarget
  metaValid : Bool
deriving DecidableEq, Repr

/-- Modelled from the spec: `ConfigBundle.get_dependencies` (called by the
`bunnfo -d` callback of cli.py) returns the resolved dependency order. -/
def ConfigBundle.get_dependencies (b : ConfigBundle) : List String :=
  b.depOrder

/-- Modelled from the spec: the per-target Downloader+HashVerifier step
(spec.md section 4.2).  An existing regular file is verified against the
recorded hash and never re-downloaded (mismatch raises
`HashMismatchError` naming the path); an existing non-regular file raises
`NotAFileError`; an absent file is stream-downloaded (the network is
modelled as url to hash-of-fetched-bytes) and kept only when the hash
matches — a mismatching download is discarded.  The returned list holds
the progress-observer events, emitted only when `show_progress` is on. -/
def processTarget (net : String → Option Nat) (show_progress : Bool) (fs : FS)
    (t : RetrievalTarget) : Except PyError FS × List String :=
  match pathStatus fs t.destPath with
  | PathStatus.regularFile h =>
    if h = t.expectedHash then (Except.ok fs, [])
    else (Except.error (PyError.hashMismatch t.destPath), [])
  | PathStatus.directory => (Except.error (PyError.notAFile t.destPath), [])
  | PathStatus.otherKind => (Except.error (PyError.notAFile t.destPath), [])
  | PathStatus.absent =>
    match net t.url with
    | none => (Except.error (PyError.otherError ("download failure: " ++ t.url)), [])
    | some h =>
      if h = t.expectedHash then
        (Except.ok (setPath fs t.destPath (PathStatus.regularFile h)),
          if show_progress then [t.url] else [])
      else
        (Except.error (PyError.hashMismatch t.destPath),
          if show_progress then [t.url] else [])

/-- Modelled from the spec: download and verify every retrieval target in
order, failing fast on the first error (spec.md section 4.4 step 3);
files already retrieved stay in the downloads cache. -/
def downloadAll (net : String → Option Nat) (show_progress : Bool) :
    List RetrievalTarget → FS → FS × List String × Option PyError
  | [], fs => (fs, [], none)
  | t :: ts, fs =>
    match processTarget net show_progress fs t with
    | (Except.error e, ev) => (fs, ev, some e)
    | (Except.ok fs', ev) =>
      match downloadAll net show_progress ts fs' with
      | (fsf, evs, res) => (fsf, ev ++ evs, res)

deriving instance DecidableEq for Except

/-- The observable outcome of one retrieval run: the Python-level result,
the final filesystem, the progress-observer events, and the
tree-mutating stages that actually ran. -/
structure RetrievalOutcome where
  result : Except PyError Unit
  fs : FS
  events : List String
  stages : List String
deriving DecidableEq, Repr

/-- Modelled from the spec:
`buildkit.source_retrieval.retrieve_and_extract` (spec.md section 4.4),
the pipeline entry point the getsrc callback invokes: precondition checks
(downloads directory exists and is a directory, tree does not yet exist),
then download+verify of every target, and — only after every target
verified — extraction into the tree, binary pruning when requested, and
domain substitution. -/
def retrieve_and_extract (bundle : ConfigBundle) (downloads tree : String)
    (prune_binaries show_progress : Bool) (net : String → Option Nat)
    (fs : FS) : RetrievalOutcome :=
  match pathStatus fs downloads with
  | PathStatus.absent =>
    ⟨Except.error (PyError.fileNotFound downloads), fs, [], []⟩
  | PathStatus.regularFile _ =>
    ⟨Except.error (PyError.notADirectory downloads), fs, [], []⟩
  | PathStatus.otherKind =>
    ⟨Except.error (PyError.notADirectory downloads), fs, [], []⟩
  | PathStatus.directory =>
    if pathStatus fs tree = PathStatus.absent then
      match downloadAll net show_progress bundle.targets fs with
      | (fs', evs, some e) => ⟨Except.error e, fs', evs, []⟩
      | (fs', evs, none) =>
        ⟨Except.ok (), setPath fs' tree PathStatus.directory, evs,
          ["extract"] ++ (if prune_binaries then ["prune"] else []) ++ ["substitute"]⟩
    else ⟨Except.error (PyError.fileExists tree), fs, [], []⟩

/-- Modelled from the spec: `ConfigBundle.write`, the genbun
materialisation (spec.md section 4.1): fails with `FileExistsError` when
the output path exists (never overwrites) and with `ValueError` when a
metadata constraint is violated, writing nothing in either case. -/
def ConfigBundle.write (b : ConfigBundle) (path : String) (fs : FS) :
    Except PyError Unit × FS :=
  if pathStatus fs path ≠ PathStatus.absent then
    (Except.error (PyError.fileExists path), fs)
  else if b.metaValid then
    (Except.ok (), setPath fs path PathStatus.directory)
  else
    (Except.error (PyError.valueError "base bundle metadata constraint violated"), fs)

/-- Modelled from the spec: the raw on-disk artifacts of one named bundle
(spec.md section 3): display name, optional base reference, metadata
validity, and the retrieval targets it contributes. -/
structure RawBundle where
  displayName : String
  baseName : Option String
  metaValid : Bool
  targets : List RetrievalTarget
deriving DecidableEq, Repr

/-- Modelled from the spec: the BundleStore — the resources root together
with the bundles available under `resources/config_bundles` (spec.md
section 2). -/
structure BundleStore where
  resourcesExists : Bool
  bundles : List (String × RawBundle)
deriving DecidableEq, Repr

def lookupBundle (store : BundleStore) (name : String) : Option RawBundle :=
  match store.bundles.find? (fun e => e.1 == name) with
  | some e => some e.2
  | none => none

/-- The typed configuration errors of base-bundle loading (spec.md
section 7); they surface to cli.py as `NotADirectoryError`,
`FileNotFoundError` and `ValueError` respectively. -/
inductive FromBaseErr
  | resourcesMissing
  | unknownBundle (name : String)
  | metadataIssue (offender : String) (detail : String)
  | cyclicChain (offender : String)
deriving DecidableEq, Repr

/-- Modelled from the spec: walk the base-bundle chain (spec.md section
4.1), root first, keeping a visited set of names on the resolution path
for cycle detection; a dangling base reference is a malformed-metadata
error naming the referencing bundle. -/
def resolveChain (store : BundleStore) (fuel : Nat) (name : String) (rb : RawBundle)
    (visited : List String) : Except FromBaseErr (List String) :=
  if rb.metaValid = false then
    Except.error (FromBaseErr.metadataIssue name "malformed metadata")
  else
    match rb.baseName with
    | none => Except.ok [name]
    | some b =>
      if b ∈ name :: visited then Except.error (FromBaseErr.cyclicChain b)
      else
        match fuel, lookupBundle store b with
        | _, none =>
          Except.error (FromBaseErr.metadataIssue name
            ("nonexistent base reference " ++ b))
        | 0, some _ => Except.error (FromBaseErr.cyclicChain name)
        | fuel' + 1, some rbb =>
          match resolveChain store fuel' b rbb (name :: visited) with
          | Except.error e => Except.error e
          | Except.ok order => Except.ok (order ++ [name])

/-- Modelled from the spec: the list-artifact merge rule (spec.md section
4.1) — iterate bundles in dependency order, appending the items not
already present. -/
def mergedTargets (store : BundleStore) (order : List String) : List RetrievalTarget :=
  order.foldl
    (fun acc n =>
      match lookupBundle store n with
      | some rb => acc ++ rb.targets.filter (fun t => decide (t ∉ acc))
      | none => acc) []

/-- Modelled from the spec: `ConfigBundle.from_base_name`, the loader the
cli.py argparse action calls: the resources root must exist, the requested
name must exist under it, and the base chain is resolved root-first and
merged. -/
def from_base_name (store : BundleStore) (name : String) :
    Except FromBaseErr ConfigBundle :=
  if store.resourcesExists = false then Except.error FromBaseErr.resourcesMissing
  else
    match lookupBundle store name with
    | none => Except.error (FromBaseErr.unknownBundle name)
    | some rb =>
      match resolveChain store store.bundles.length name rb [] with
      | Except.error e => Except.error e
      | Except.ok order =>
        Except.ok
          { depOrder := order, targets := mergedTargets store order, metaValid := true }

/-- The Python exception type each typed loader error is raised as
(spec.md section 6: errors surface to the CLI layer typed). -/
def FromBaseErr.toPy : FromBaseErr → PyError
  | FromBaseErr.resourcesMissing => PyError.notADirectory "resources"
  | FromBaseErr.unknownBundle n => PyError.fileNotFound n
  | FromBaseErr.metadataIssue b d => PyError.valueError ("bundle " ++ (b ++ (": " ++ d)))
  | FromBaseErr.cyclicChain b => PyError.valueError ("cyclic base bundle chain at " ++ b)

/-- `_NewBaseBundleAction.__call__` from cli.py: load the base bundle,
translating each exception type into a logged message and
`parser.exit(status=1)`, in the order of the `except` clauses of the
source. -/
def newBaseBundleAction (store : BundleStore) (values : String) :
    Except (Nat × String) ConfigBundle :=
  match (from_base_name store values).mapError FromBaseErr.toPy with
  | Except.ok b => Except.ok b
  | Except.error (PyError.notADirectory _) =>
    Except.error (1, "resources/ or resources/patches directories could not be found.")
  | Except.error (PyError.fileNotFound _) =>
    Except.error (1, "The base config bundle \"" ++ values ++ "\" does not exist.")
  | Except.error (PyError.valueError m) =>
    Except.error (1, "Base bundle metadata has an issue: " ++ m)
  | Except.error _ =>
    Except.error (1, "Unexpected exception caught.")

/-- Result of one cli.py command callback: printed stdout lines, logged
error lines, whether `_CLIError` was raised, and the filesystem
afterwards. -/
structure CmdResult where
  stdout : List String
  logged : List String
  cliErr : Bool
  fs : FS
deriving DecidableEq, Repr

/-- The `bunnfo -d` branch of `_add_bunnfo._callback` from cli.py: print
each dependency of the bundle on its own line; purely read-only. -/
def bunnfo_deps_callback (bundle : ConfigBundle) (fs : FS) : CmdResult :=
  ⟨bundle.get_dependencies, [], false, fs⟩

/-- `_add_genbun._callback` from cli.py: write the user bundle, mapping
`FileExistsError` and `ValueError` to logged messages plus `_CLIError`. -/
def genbun_callback (base_bundle : ConfigBundle) (user_bundle_path : String)
    (fs : FS) : CmdResult :=
  match ConfigBundle.write base_bundle user_bundle_path fs with
  | (Except.ok _, fs') => ⟨[], [], false, fs'⟩
  | (Except.error (PyError.fileExists _), fs') =>
    ⟨[], ["User bundle already exists: " ++ user_bundle_path], true, fs'⟩
  | (Except.error (PyError.valueError m), fs') =>
    ⟨[], ["Error with base bundle: " ++ m], true, fs'⟩
  | (Except.error _, fs') => ⟨[], ["Unexpected exception caught."], true, fs'⟩

/-- `_add_getsrc._callback` from cli.py: run `retrieve_and_extract`,
mapping each exception type to its logged message plus `_CLIError`, in
the order of the `except` clauses of the source. -/
def getsrc_callback (bundle : ConfigBundle) (downloads tree : String)
    (prune_binaries show_progress : Bool) (net : String → Option Nat)
    (fs : FS) : CmdResult :=
  let o := retrieve_and_extract bundle downloads tree prune_binaries show_progress net fs
  match o.result with
  | Except.ok _ => ⟨[], [], false, o.fs⟩
  | Except.error (PyError.fileExists _) =>
    ⟨[], ["Buildspace tree already exists: " ++ tree], true, o.fs⟩
  | Except.error (PyError.fileNotFound _) =>
    ⟨[], ["Buildspace downloads does not exist: " ++ downloads], true, o.fs⟩
  | Except.error (PyError.notADirectory _) =>
    ⟨[], ["Buildspace downloads is not a directory: " ++ downloads], true, o.fs⟩
  | Except.error (PyError.notAFile p) =>
    ⟨[], ["Archive path is not a regular file: " ++ p], true, o.fs⟩
  | Except.error (PyError.hashMismatch p) =>
    ⟨[], ["Archive checksum is invalid: " ++ p], true, o.fs⟩
  | Except.error _ => ⟨[], ["Unexpected exception caught."], true, o.fs⟩

/-- The argparse namespace for each subcommand of cli.py `main` after
parsing succeeded (`-b` base bundles have already been loaded by
`_NewBaseBundleAction` at parse time). -/
inductive ParsedArgs
  | bunnfoDeps (bundle : ConfigBundle)
  | genbun (user_bundle_path : String) (base_bundle : ConfigBundle)
  | getsrc (bundle : ConfigBundle) (tree downloads : String)
      (prune_binaries show_progress : Bool)
  | prubin (bundle : ConfigBundle)
  | subdom (bundle : ConfigBundle) (only : Option String)
  | genpkg (bundle : ConfigBundle) (output_path : String)

/-- The `dest='command'` value argparse records for each subcommand. -/
def ParsedArgs.command : ParsedArgs → String
  | ParsedArgs.bunnfoDeps _ => "bunnfo"
  | ParsedArgs.genbun _ _ => "genbun"
  | ParsedArgs.getsrc _ _ _ _ _ => "getsrc"
  | ParsedArgs.prubin _ => "prubin"
  | ParsedArgs.subdom _ _ => "subdom"
  | ParsedArgs.genpkg _ _ => "genpkg"

/-- The `callback` attribute of the parsed namespace: `_add_bunnfo`,
`_add_genbun` and `_add_getsrc` install one via `set_defaults`;
`_add_prubin`, `_add_subdom` and `_add_genpkg` never call `set_defaults`,
so for their subcommands the attribute is missing. -/
def callbackOf (net : String → Option Nat) : ParsedArgs → Option (FS → CmdResult)
  | ParsedArgs.bunnfoDeps b => some (bunnfo_deps_callback b)
  | ParsedArgs.genbun up base => some (genbun_callback base up)
  | ParsedArgs.getsrc b t d pr sp => some (getsrc_callback b d t pr sp net)
  | ParsedArgs.prubin _ => none
  | ParsedArgs.subdom _ _ => none
  | ParsedArgs.genpkg _ _ => none

/-- Observable outcome of cli.py `main`: normal exit printing stdout,
`parser.exit(status=1)` after `_CLIError` (with the messages the callback
logged), or an uncaught Python exception. -/
inductive MainOutcome
  | ok (stdout : List String)
  | exit1 (logged : List String)
  | uncaught (exc : String)
deriving DecidableEq, Repr

/-- `main` from cli.py: read `args.callback` — when the subparser never
set one the attribute lookup raises `AttributeError`, which escapes
uncaught since only `_CLIError` is handled — then run the callback,
converting `_CLIError` into `parser.exit(status=1)`. -/
def main (net : String → Option Nat) (args : ParsedArgs) (fs : FS) :
    MainOutcome × FS :=
  match callbackOf net args with
  | none => (MainOutcome.uncaught "AttributeError", fs)
  | some cb =>
    if (cb fs).cliErr then (MainOutcome.exit1 (cb fs).logged, (cb fs).fs)
    else (MainOutcome.ok (cb fs).stdout, (cb fs).fs)

/-- `m` names `x`: the string `x` occurs verbatim inside `m`. -/
def strNames (m x : String) : Prop :=
  ∃ pre post : String, m = pre ++ (x ++ post)

/-- A network where every URL fails: no download can happen. -/
def net0 : String → Option Nat := fun _ => none

/-- A trivially resolved bundle used as witness input. -/
def bundle0 : ConfigBundle := ⟨["root"], [], true⟩

/-- A bundle whose single target's recorded hash (7) differs from the
archive already present in the downloads cache (5). -/
def bundle1 : ConfigBundle :=
  ⟨["root"], [⟨"https://example.com/a.tar.xz", 7, "buildspace/downloads/a.tar.xz", 0⟩], true⟩

/-- A bundle whose merged metadata violates a constraint. -/
def bundleBad : ConfigBundle := ⟨["root"], [], false⟩

/-- Downloads directory present, tree absent, cached archive of hash 5. -/
def fs1 : FS :=
  [("buildspace/downloads", PathStatus.directory),
   ("buildspace/downloads/a.tar.xz", PathStatus.regularFile 5)]

/-- Downloads directory and tree both already present. -/
def fs2 : FS :=
  [("buildspace/downloads", PathStatus.directory),
   ("buildspace/tree", PathStatus.directory)]

/-- A user-bundle output path that already exists. -/
def fs3 : FS := [("buildspace/user_bundle", PathStatus.directory)]

/-- A store holding one bundle with malformed metadata. -/
def storeBroken : BundleStore :=
  ⟨true, [("broken", ⟨"Broken bundle", none, false, []⟩)]⟩

/-! ## Theorems -/

theorem take_pref {α : Type} (n : Nat) (l : List α) : l.take n <+: l :=
  List.take_prefix n l

/-- `pyFind` returns exactly the leftmost occurrence: `some i` iff `need`
matches at `i` and at no smaller index. -/
theorem pyFind_eq_some_iff (need : List Char) :
    ∀ (hay : List Char) (i : Nat),
      pyFind need hay = some i ↔
        (need <+: hay.drop i ∧ ∀ j, j < i → ¬ need <+: hay.drop j) := by
  intro hay
  induction hay with
  | nil =>
    intro i
    simp only [pyFind, List.drop_nil]
    by_cases hp : need <+: ([] : List Char)
    · have hb : need.isPrefixOf ([] : List Char) = true :=
        List.isPrefixOf_iff_prefix.mpr hp
      rw [hb]
      simp only [if_true]
      constructor
      · intro h
        cases h
        exact ⟨hp, fun j hj => absurd hj (Nat.not_lt_zero j)⟩
      · rintro ⟨-, hmin⟩
        rcases Nat.eq_zero_or_pos i with hi | hi
        · rw [hi]
        · exact absurd hp (hmin 0 hi)
    · have hb : need.isPrefixOf ([] : List Char) = false := by
        cases hb2 : need.isPrefixOf ([] : List Char)
        · rfl
        · exact absurd (List.isPrefixOf_iff_prefix.mp hb2) hp
      rw [hb]
      simp only [if_false, Bool.false_eq_true]
      constructor
      · intro h; cases h
      · rintro ⟨hpre, -⟩; exact absurd hpre hp
  | cons c t ih =>
    intro i
    by_cases hp : need <+: (c :: t)
    · have hb : need.isPrefixOf (c :: t) = true := List.isPrefixOf_iff_prefix.mpr hp
      simp only [pyFind, hb, if_true]
      constructor
      · intro h
        cases h
        exact ⟨hp, fun j hj => absurd hj (Nat.not_lt_zero j)⟩
      · rintro ⟨-, hmin⟩
        rcases Nat.eq_zero_or_pos i with hi | hi
        · rw [hi]
        · exact absurd hp (hmin 0 hi)
    · have hb : need.isPrefixOf (c :: t) = false := by
        cases hb2 : need.isPrefixOf (c :: t)
        · rfl
        · exact absurd (List.isPrefixOf_iff_prefix.mp hb2) hp
      simp only [pyFind, hb, Bool.false_eq_true, if_false]
      constructor
      · intro h
        rcases Option.map_eq_some'.mp h with ⟨i', hi', rfl⟩
        rcases (ih i').mp hi' with ⟨hpre, hmin⟩
        refine ⟨by simpa using hpre, ?_⟩
        intro j hj
        cases j with
        | zero => simpa using hp
        | succ j' =>
          have : j' < i' := Nat.lt_of_succ_lt_succ hj
          simpa using hmin j' this
      · rintro ⟨hpre, hmin⟩
        cases i with
        | zero => exact absurd (by simpa using hpre) hp
        | succ i' =>
          have h1 : pyFind need t = some i' := by
            refine (ih i').mpr ⟨by simpa using hpre, ?_⟩
            intro j hj
            have := hmin (j + 1) (Nat.succ_lt_succ hj)
            simpa using this
          rw [h1, Option.map_some']

theorem pyFind_some_pref {need hay : List Char} {i : Nat}
    (h : pyFind need hay = some i) : need <+: hay.drop i :=
  ((pyFind_eq_some_iff need hay i).mp h).1

theorem pyFind_some_min {need hay : List Char} {i : Nat}
    (h : pyFind need hay = some i) : ∀ j, j < i → ¬ need <+: hay.drop j :=
  ((pyFind_eq_some_iff need hay i).mp h).2

/-- `pyFind` returns `none` exactly when the needle occurs nowhere. -/
theorem pyFind_eq_none_iff (need : List Char) :
    ∀ (hay : List Char),
      pyFind need hay = none ↔ ∀ j, ¬ need <+: hay.drop j := by
  intro hay
  induction hay with
  | nil =>
    simp only [pyFind, List.drop_nil]
    by_cases hp : need <+: ([] : List Char)
    · have hb : need.isPrefixOf ([] : List Char) = true :=
        List.isPrefixOf_iff_prefix.mpr hp
      rw [hb]
      simp only [if_true]
      constructor
      · intro h; cases h
      · intro h; exact absurd hp (h 0)
    · have hb : need.isPrefixOf ([] : List Char) = false := by
        cases hb2 : need.isPrefixOf ([] : List Char)
        · rfl
        · exact absurd (List.isPrefixOf_iff_prefix.mp hb2) hp
      rw [hb]
      simp only [if_false, Bool.false_eq_true]
      exact ⟨fun _ _ => hp, fun _ => trivial⟩
  | cons c t ih =>
    by_cases hp : need <+: (c :: t)
    · have hb : need.isPrefixOf (c :: t) = true := List.isPrefixOf_iff_prefix.mpr hp
      simp only [pyFind, hb, if_true]
      constructor
      · intro h; cases h
      · intro h; exact absurd hp (by simpa using h 0)
    · have hb : need.isPrefixOf (c :: t) = false := by
        cases hb2 : need.isPrefixOf (c :: t)
        · rfl
        · exact absurd (List.isPrefixOf_iff_prefix.mp hb2) hp
      simp only [pyFind, hb, Bool.false_eq_true, if_false, Option.map_eq_none']
      rw [ih]
      constructor
      · intro h j
        cases j with
        | zero => simpa using hp
        | succ j' => simpa using h j'
      · intro h j
        have := h (j + 1)
        simpa using this

/-- `pyFind` finds something exactly when the needle occurs somewhere
(`need` is an infix of `hay`). -/
theorem pyFind_isSome_iff (need hay : List Char) :
    (pyFind need hay).isSome ↔ need <:+: hay := by
  constructor
  · intro h
    rcases Option.isSome_iff_exists.mp h with ⟨i, hi⟩
    rcases pyFind_some_pref hi with ⟨t, ht⟩
    exact ⟨hay.take i, t, by rw [List.append_assoc, ht, List.take_append_drop]⟩
  · rintro ⟨s, t, rfl⟩
    rcases h : pyFind need (s ++ need ++ t) with - | i
    · exfalso
      have hnon := (pyFind_eq_none_iff need (s ++ need ++ t)).mp h s.length
      apply hnon
      rw [List.append_assoc, List.drop_left]
      exact List.prefix_append need t
    · rfl

theorem singleton_pref_drop_iff {c : Char} {l : List Char} {j : Nat} :
    [c] <+: l.drop j ↔ l[j]? = some c := by
  rw [← List.head?_drop]
  constructor
  · rintro ⟨r, hr⟩
    rw [← hr]
    rfl
  · intro h
    rcases hd : l.drop j with - | ⟨a, t⟩
    · rw [hd] at h
      cases h
    · rw [hd, List.head?_cons] at h
      injection h with h'
      rw [h']
      exact ⟨t, rfl⟩

theorem pref_drop_congr {X Y P : List Char} {j n : Nat}
    (hXY : X.take n = Y.take n) (hj : j + P.length ≤ n) :
    (P <+: X.drop j ↔ P <+: Y.drop j) := by
  have key : ∀ Z : List Char, ((Z.take n).drop j).take P.length = (Z.drop j).take P.length := by
    intro Z
    rw [List.drop_take, List.take_take, min_eq_left]
    omega
  have heq : (X.drop j).take P.length = (Y.drop j).take P.length := by
    rw [← key X, ← key Y, hXY]
  rw [List.prefix_iff_eq_take, List.prefix_iff_eq_take, heq]

theorem append_singleton_inj {L₁ L₂ : List Char} {a b : Char}
    (h : L₁ ++ [a] = L₂ ++ [b]) : L₁ = L₂ ∧ a = b := by
  have h' := congrArg List.reverse h
  rw [List.reverse_append, List.reverse_append] at h'
  simp only [List.reverse_cons, List.reverse_nil, List.nil_append, List.cons_append] at h'
  injection h' with ha ht
  exact ⟨List.reverse_inj.mp ht, ha⟩

/-- An occurrence of `P` inside `A ++ [x]` that cannot use the final
character `x` (because `x ∉ P`) is an occurrence inside `A`. -/
theorem infix_append_singleton {P A : List Char} {x : Char}
    (h : P <:+: A ++ [x]) (hx : x ∉ P) : P <:+: A := by
  rcases h with ⟨u, t, hut⟩
  rcases List.eq_nil_or_concat t with rfl | ⟨t₀, y, rfl⟩
  · rcases List.eq_nil_or_concat P with rfl | ⟨P₀, c, rfl⟩
    · exact List.nil_infix
    · exfalso
      rw [List.concat_eq_append, List.append_nil, ← List.append_assoc] at hut
      rcases append_singleton_inj hut with ⟨-, rfl⟩
      exact hx (by simp [List.concat_eq_append])
  · rw [List.concat_eq_append, ← List.append_assoc] at hut
    rcases append_singleton_inj hut with ⟨h₁, rfl⟩
    exact ⟨u, t₀, h₁⟩

theorem marker_no_close : closeBracket ∉ PRUNING_MARKER := by decide

theorem marker_length : PRUNING_MARKER.length = 28 := by decide

theorem no_close_in_patternLine : ∀ p ∈ new_patterns, closeBracket ∉ patternLine p := by
  decide

theorem no_close_in_quoted : ∀ p ∈ new_patterns, closeBracket ∉ quoted p := by
  decide

theorem quoted_infix_patternLine (p : List Char) : quoted p <:+: patternLine p :=
  ⟨[' ', ' ', ' ', ' '], [',', '\n'], rfl⟩

theorem singleton_pref_drop_append {c : Char} {A B : List Char} {j : Nat}
    (hj : j < A.length) : ([c] <+: (A ++ B).drop j ↔ [c] <+: A.drop j) := by
  rw [singleton_pref_drop_iff, singleton_pref_drop_iff, List.getElem?_append, if_pos hj]

/-- Facts available once the marker and the bracket have been found: the
bracket offset clears the marker (which contains no bracket), the bracket
is a real position of the file, and no bracket occurs between the marker
and it. -/
theorem close_facts {content : List Char} {s k : Nat}
    (hs : pyFind PRUNING_MARKER content = some s)
    (hk : pyFind [closeBracket] (content.drop s) = some k) :
    28 ≤ k ∧ s + k < content.length ∧
      closeBracket ∉ (content.drop s).take k ∧
      ∃ r, content.drop (s + k) = closeBracket :: r := by
  have hM := pyFind_some_pref hs
  have hC := pyFind_some_pref hk
  have hCmin := pyFind_some_min hk
  have hR : ∃ r, content.drop (s + k) = closeBracket :: r := by
    rcases hC with ⟨r, hr⟩
    rw [List.drop_drop] at hr
    exact ⟨r, hr.symm⟩
  rcases hR with ⟨r, hr⟩
  have hlen : s + k < content.length := by
    have h1 : content.drop (s + k) ≠ [] := by rw [hr]; simp
    exact List.length_lt_of_drop_ne_nil h1
  have hk28 : 28 ≤ k := by
    by_contra hlt
    push_neg at hlt
    have htake : (content.drop s).take PRUNING_MARKER.length = PRUNING_MARKER := by
      rcases hM with ⟨t2, ht2⟩
      rw [← ht2, List.take_left]
    have hlt' : k < PRUNING_MARKER.length := by rw [marker_length]; omega
    have hclose : (content.drop s)[k]? = some closeBracket := by
      rw [← List.head?_drop, List.drop_drop, hr]
      rfl
    have hclose2 : PRUNING_MARKER[k]? = some closeBracket := by
      rw [← htake, List.getElem?_take, if_pos hlt']
      exact hclose
    have hmem : closeBracket ∈ PRUNING_MARKER := by
      rcases List.getElem?_eq_some.mp hclose2 with ⟨h1, h2⟩
      rw [← h2]
      exact List.getElem_mem h1
    exact marker_no_close hmem
  refine ⟨hk28, hlen, ?_, r, hr⟩
  intro hmem
  rcases List.mem_iff_getElem.mp hmem with ⟨j, hj, hget⟩
  have hjk : j < k := by
    have := hj
    rw [List.length_take] at this
    omega
  apply hCmin j hjk
  rw [singleton_pref_drop_iff]
  have hq : ((content.drop s).take k)[j]? = some closeBracket := by
    rw [List.getElem?_eq_getElem hj, hget]
  rw [List.getElem?_take, if_pos hjk] at hq
  exact hq

/-- The Python local `current_list` spans from the marker through the
closing bracket inclusive. -/
theorem currentList_eq {content : List Char} {s k : Nat}
    (hk : pyFind [closeBracket] (content.drop s) = some k) :
    currentList content s k = (content.drop s).take k ++ [closeBracket] := by
  rcases pyFind_some_pref hk with ⟨r, hr⟩
  rw [List.drop_drop] at hr
  simp only [currentList, pySlice]
  have h1 : s + k + 1 - s = k + 1 := by omega
  rw [h1, List.take_add, List.drop_drop, ← hr]
  rfl

theorem no_close_in_patternsToAdd (content : List Char) (s k : Nat) :
    closeBracket ∉ (patternsToAdd content s k).flatten := by
  intro hmem
  rcases List.mem_flatten.mp hmem with ⟨l, hl, hcl⟩
  have hl' : l ∈ (new_patterns.filter
      (fun p => !(isSubstrOf (quoted p) (currentList content s k)))).map patternLine := by
    simpa [patternsToAdd] using hl
  rcases List.mem_map.mp hl' with ⟨p, hp, rfl⟩
  exact no_close_in_patternLine p (List.mem_filter.mp hp).1 hcl

/-- Inserting bracket-free text `J` just before the closing bracket moves
the bracket by `J.length` positions but leaves the marker where it was;
the new `current_list` is the old one with `J` in front of the bracket. -/
theorem insert_before_close_finds {content J : List Char} {s k : Nat}
    (hs : pyFind PRUNING_MARKER content = some s)
    (hk : pyFind [closeBracket] (content.drop s) = some k)
    (hJno : closeBracket ∉ J) :
    pyFind PRUNING_MARKER (content.take (s + k) ++ J ++ content.drop (s + k)) = some s ∧
    pyFind [closeBracket] ((content.take (s + k) ++ J ++ content.drop (s + k)).drop s)
      = some (k + J.length) ∧
    currentList (content.take (s + k) ++ J ++ content.drop (s + k)) s (k + J.length)
      = (content.drop s).take k ++ J ++ [closeBracket] := by
  obtain ⟨hk28, hlen, hDno, r, hR⟩ := close_facts hs hk
  have hM := pyFind_some_pref hs
  have hMmin := pyFind_some_min hs
  have hk28' : PRUNING_MARKER.length ≤ k := by rw [marker_length]; omega
  have hTKlen : (content.take (s + k)).length = s + k := by
    rw [List.length_take]
    exact min_eq_left (by omega)
  have hNtake : (content.take (s + k) ++ J ++ content.drop (s + k)).take (s + k)
      = content.take (s + k) := by
    rw [List.append_assoc, List.take_left' hTKlen]
  have hNdrop : (content.take (s + k) ++ J ++ content.drop (s + k)).drop s
      = (content.drop s).take k ++ (J ++ content.drop (s + k)) := by
    rw [List.append_assoc, List.drop_append_eq_append_drop]
    have h2 : s - (content.take (s + k)).length = 0 := by rw [hTKlen]; omega
    rw [h2, List.drop_zero, List.drop_take]
    congr 2
    omega
  have hDJlen : ((content.drop s).take k ++ J).length = k + J.length := by
    rw [List.length_append, List.length_take, List.length_drop, min_eq_left (by omega)]
  refine ⟨?_, ?_, ?_⟩
  · rw [pyFind_eq_some_iff]
    constructor
    · rw [hNdrop]
      exact List.IsPrefix.trans (List.prefix_take_iff.mpr ⟨hM, hk28'⟩) (List.prefix_append _ _)
    · intro j hj hcontra
      refine hMmin j hj ?_
      refine (pref_drop_congr hNtake ?_).mp hcontra
      rw [marker_length]
      omega
  · rw [pyFind_eq_some_iff]
    constructor
    · rw [hNdrop, ← List.append_assoc, List.drop_left' hDJlen, hR]
      exact ⟨r, rfl⟩
    · intro j hj hcontra
      rw [hNdrop, ← List.append_assoc] at hcontra
      have hjlen : j < ((content.drop s).take k ++ J).length := by
        rw [hDJlen]
        omega
      rw [singleton_pref_drop_append hjlen] at hcontra
      have hmem : closeBracket ∈ (content.drop s).take k ++ J := by
        rcases List.getElem?_eq_some.mp (singleton_pref_drop_iff.mp hcontra) with ⟨hlt, hEq⟩
        rw [← hEq]
        exact List.getElem_mem hlt
      rcases List.mem_append.mp hmem with h3 | h3
      · exact hDno h3
      · exact hJno h3
  · simp only [currentList, pySlice]
    have e1 : s + (k + J.length) + 1 - s = k + J.length + 1 := by omega
    rw [e1, hNdrop, ← List.append_assoc, List.take_append_eq_append_take]
    rw [List.take_of_length_le (by rw [hDJlen]; omega), hDJlen]
    have e2 : k + J.length + 1 - (k + J.length) = 1 := by omega
    rw [e2, hR, List.append_assoc]
    simp

/-- After a run of `add_patterns_to_file` on content containing the marker
and a closing bracket, a second run finds nothing left to add and writes
nothing. -/
theorem add_patterns_second_run_none {content : List Char} {s k : Nat}
    (hs : pyFind PRUNING_MARKER content = some s)
    (hk : pyFind [closeBracket] (content.drop s) = some k) :
    add_patterns_to_file (applyOnce content) = none := by
  cases hPTA : (patternsToAdd content s k).isEmpty with
  | true =>
    have h0 : add_patterns_to_file content = none := by
      simp only [add_patterns_to_file, hs, hk, hPTA, if_true]
    rw [applyOnce, h0, Option.getD_none]
    exact h0
  | false =>
    have hJno := no_close_in_patternsToAdd content s k
    obtain ⟨h1, h2, h3⟩ := insert_before_close_finds hs hk hJno
    have hA : applyOnce content
        = content.take (s + k) ++ (patternsToAdd content s k).flatten
            ++ content.drop (s + k) := by
      rw [applyOnce]
      simp only [add_patterns_to_file, hs, hk, hPTA, Bool.false_eq_true, if_false,
        Option.getD_some]
    have hCLold := currentList_eq hk
    have hAll : ∀ p ∈ new_patterns,
        isSubstrOf (quoted p)
          (currentList (content.take (s + k) ++ (patternsToAdd content s k).flatten
              ++ content.drop (s + k)) s
            (k + (patternsToAdd content s k).flatten.length)) = true := by
      intro p hp
      rw [h3, isSubstrOf]
      rw [Bool.eq_iff_iff, pyFind_isSome_iff]
      simp only [iff_true]
      cases hsub : isSubstrOf (quoted p) (currentList content s k) with
      | true =>
        have hinf : quoted p <:+: (content.drop s).take k ++ [closeBracket] := by
          rw [← hCLold, ← pyFind_isSome_iff, ← isSubstrOf]
          exact hsub
        have hinD : quoted p <:+: (content.drop s).take k :=
          infix_append_singleton hinf (no_close_in_quoted p hp)
        refine hinD.trans ?_
        rw [List.append_assoc]
        exact (List.prefix_append _ _).isInfix
      | false =>
        have hline : patternLine p ∈ patternsToAdd content s k := by
          rw [patternsToAdd]
          apply List.mem_map.mpr
          refine ⟨p, ?_, rfl⟩
          apply List.mem_filter.mpr
          refine ⟨hp, ?_⟩
          rw [hsub]
          rfl
        have hinJ : patternLine p <:+: (patternsToAdd content s k).flatten :=
          List.infix_of_mem_flatten hline
        exact ((quoted_infix_patternLine p).trans hinJ).trans
          (List.infix_append _ _ _)
    have hPTA' : patternsToAdd
        (content.take (s + k) ++ (patternsToAdd content s k).flatten
          ++ content.drop (s + k)) s
        (k + (patternsToAdd content s k).flatten.length) = [] := by
      rw [patternsToAdd]
      have hf : new_patterns.filter
          (fun p => !(isSubstrOf (quoted p)
            (currentList (content.take (s + k) ++ (patternsToAdd content s k).flatten
                ++ content.drop (s + k)) s
              (k + (patternsToAdd content s k).flatten.length)))) = [] := by
        rw [List.filter_eq_nil_iff]
        intro p hp
        rw [hAll p hp]
        simp
      rw [hf]
      rfl
    rw [hA]
    simp only [add_patterns_to_file, h1, h2, hPTA', List.isEmpty_nil, if_true]

/-- Claim C9: `add_patterns_to_file` is idempotent on any `update_lists.py`
content that contains the marker `PRUNING_EXCLUDE_PATTERNS = [` followed by
a closing bracket: the second run finds every quoted pattern already
present and writes nothing, so the file state after two runs equals the
state after one run. -/
theorem C9_add_patterns_idempotent (content : List Char) (s k : Nat)
    (hs : pyFind PRUNING_MARKER content = some s)
    (hk : pyFind [closeBracket] (content.drop s) = some k) :
    add_patterns_to_file (applyOnce content) = none ∧
      applyOnce (applyOnce content) = applyOnce content := by
  have h := add_patterns_second_run_none hs hk
  refine ⟨h, ?_⟩
  show (add_patterns_to_file (applyOnce content)).getD (applyOnce content) = applyOnce content
  rw [h, Option.getD_none]

/-- Claim C10: `add_patterns_to_file` changes the file only by inserting a
nonempty flattened block of pattern lines immediately before the first `]`
following the marker; the bytes before and after the single insertion
point are preserved verbatim, and when the marker (or a following `]`) is
absent nothing is written. -/
theorem C10_add_patterns_frame (content : List Char) :
    (pyFind PRUNING_MARKER content = none → add_patterns_to_file content = none) ∧
    (∀ s, pyFind PRUNING_MARKER content = some s →
      pyFind [closeBracket] (content.drop s) = none →
      add_patterns_to_file content = none) ∧
    (∀ s k new, pyFind PRUNING_MARKER content = some s →
      pyFind [closeBracket] (content.drop s) = some k →
      add_patterns_to_file content = some new →
      ∃ ins, ins ≠ [] ∧
        (∃ L : List (List Char),
          L.Sublist (new_patterns.map patternLine) ∧ ins = L.flatten) ∧
        new = content.take (s + k) ++ ins ++ content.drop (s + k) ∧
        new.take (s + k) = content.take (s + k) ∧
        new.drop (s + k + ins.length) = content.drop (s + k)) := by
  refine ⟨?_, ?_, ?_⟩
  · intro h
    simp only [add_patterns_to_file, h]
  · intro s hs hnone
    simp only [add_patterns_to_file, hs, hnone]
  · intro s k new hs hk hnew
    obtain ⟨hk28, hlen, -, r, hR⟩ := close_facts hs hk
    have hPTA : (patternsToAdd content s k).isEmpty = false := by
      cases hE : (patternsToAdd content s k).isEmpty with
      | false => rfl
      | true =>
        exfalso
        have h0 : add_patterns_to_file content = none := by
          simp only [add_patterns_to_file, hs, hk, hE, if_true]
        rw [h0] at hnew
        cases hnew
    have hval : new = content.take (s + k) ++ (patternsToAdd content s k).flatten
        ++ content.drop (s + k) := by
      have h1 := hnew
      simp only [add_patterns_to_file, hs, hk, hPTA, Bool.false_eq_true, if_false,
        Option.some.injEq] at h1
      exact h1.symm
    refine ⟨(patternsToAdd content s k).flatten, ?_, ?_, hval, ?_, ?_⟩
    · cases hP : patternsToAdd content s k with
      | nil =>
        rw [hP] at hPTA
        cases hPTA
      | cons a t =>
        have ha : a ∈ patternsToAdd content s k := by
          rw [hP]
          exact List.mem_cons_self a t
        have ha' : ∃ p, (p ∈ new_patterns ∧
            isSubstrOf (quoted p) (currentList content s k) = false) ∧ patternLine p = a := by
          simpa [patternsToAdd] using ha
        rcases ha' with ⟨p, ⟨hp, -⟩, rfl⟩
        rw [List.flatten_cons]
        intro hco
        have h2 : patternLine p = [] := (List.append_eq_nil.mp hco).1
        simp [patternLine, quoted] at h2
    · refine ⟨patternsToAdd content s k, ?_, rfl⟩
      rw [patternsToAdd]
      exact List.Sublist.map patternLine (List.filter_sublist _)
    · rw [hval, List.append_assoc]
      exact List.take_left' (by rw [List.length_take]; exact min_eq_left (by omega))
    · rw [hval]
      have hlen2 : (content.take (s + k) ++ (patternsToAdd content s k).flatten).length
          = s + k + (patternsToAdd content s k).flatten.length := by
        rw [List.length_append, List.length_take, min_eq_left (by omega)]
      exact List.drop_left' hlen2

theorem C9_add_patterns_idempotent_witness :
    pyFind PRUNING_MARKER "PRUNING_EXCLUDE_PATTERNS = [\n]".data = some 0 ∧
    pyFind [closeBracket] ("PRUNING_EXCLUDE_PATTERNS = [\n]".data.drop 0) = some 29 ∧
    (add_patterns_to_file (applyOnce "PRUNING_EXCLUDE_PATTERNS = [\n]".data) = none ∧
      applyOnce (applyOnce "PRUNING_EXCLUDE_PATTERNS = [\n]".data)
        = applyOnce "PRUNING_EXCLUDE_PATTERNS = [\n]".data) :=
  ⟨by decide, by decide,
    C9_add_patterns_idempotent "PRUNING_EXCLUDE_PATTERNS = [\n]".data 0 29
      (by decide) (by decide)⟩

theorem C10_add_patterns_frame_witness :
    pyFind PRUNING_MARKER "PRUNING_EXCLUDE_PATTERNS = [\n]".data = some 0 ∧
    pyFind [closeBracket] ("PRUNING_EXCLUDE_PATTERNS = [\n]".data.drop 0) = some 29 ∧
    add_patterns_to_file "PRUNING_EXCLUDE_PATTERNS = [\n]".data
      = some (applyOnce "PRUNING_EXCLUDE_PATTERNS = [\n]".data) ∧
    (∃ ins, ins ≠ [] ∧
      (∃ L : List (List Char),
        L.Sublist (new_patterns.map patternLine) ∧ ins = L.flatten) ∧
      applyOnce "PRUNING_EXCLUDE_PATTERNS = [\n]".data
        = "PRUNING_EXCLUDE_PATTERNS = [\n]".data.take (0 + 29) ++ ins
            ++ "PRUNING_EXCLUDE_PATTERNS = [\n]".data.drop (0 + 29) ∧
      (applyOnce "PRUNING_EXCLUDE_PATTERNS = [\n]".data).take (0 + 29)
        = "PRUNING_EXCLUDE_PATTERNS = [\n]".data.take (0 + 29) ∧
      (applyOnce "PRUNING_EXCLUDE_PATTERNS = [\n]".data).drop (0 + 29 + ins.length)
        = "PRUNING_EXCLUDE_PATTERNS = [\n]".data.drop (0 + 29)) :=
  ⟨by decide, by decide, by decide,
    (C10_add_patterns_frame "PRUNING_EXCLUDE_PATTERNS = [\n]".data).2.2 0 29
      (applyOnce "PRUNING_EXCLUDE_PATTERNS = [\n]".data)
      (by decide) (by decide) (by decide)⟩

theorem pathStatus_setPath (fs : FS) (p q : String) (st : PathStatus) :
    pathStatus (setPath fs p st) q = if p = q then st else pathStatus fs q := by
  by_cases h : p = q
  · subst h
    simp [setPath, pathStatus, List.find?_cons]
  · simp [setPath, pathStatus, List.find?_cons, h]

/-- The downloader step touches only the target's own destination path. -/
theorem processTarget_preserves {net : String → Option Nat} {sp : Bool} {fs : FS}
    {t : RetrievalTarget} {fs' : FS} {ev : List String}
    (h : processTarget net sp fs t = (Except.ok fs', ev)) (q : String)
    (hq : t.destPath ≠ q) : pathStatus fs' q = pathStatus fs q := by
  cases hst : pathStatus fs t.destPath
  case absent =>
    rw [processTarget] at h
    simp only [hst] at h
    cases hnet : net t.url
    case none => simp [hnet] at h
    case some hsh =>
      simp only [hnet] at h
      by_cases he : hsh = t.expectedHash
      · simp only [if_pos he, Prod.mk.injEq, Except.ok.injEq] at h
        rw [← h.1, pathStatus_setPath, if_neg hq]
      · simp [he] at h
  case regularFile hsh =>
    rw [processTarget] at h
    simp only [hst] at h
    by_cases he : hsh = t.expectedHash
    · simp only [if_pos he, Prod.mk.injEq, Except.ok.injEq] at h
      rw [← h.1]
    · simp [he] at h
  case directory =>
    rw [processTarget] at h
    simp [hst] at h
  case otherKind =>
    rw [processTarget] at h
    simp [hst] at h

/-- Failing fast through the target list never touches a path that is no
target's destination — in particular the tree path. -/
theorem downloadAll_preserves (net : String → Option Nat) (sp : Bool)
    (ts : List RetrievalTarget) (fs : FS) (q : String)
    (hq : ∀ t ∈ ts, t.destPath ≠ q) :
    pathStatus (downloadAll net sp ts fs).1 q = pathStatus fs q := by
  induction ts generalizing fs with
  | nil => rfl
  | cons t ts ih =>
    have hq1 : t.destPath ≠ q := hq t (List.mem_cons_self t ts)
    have hq2 : ∀ u ∈ ts, u.destPath ≠ q := fun u hu => hq u (List.mem_cons_of_mem t hu)
    simp only [downloadAll]
    rcases h1 : processTarget net sp fs t with ⟨r, ev⟩
    cases r with
    | error e => rfl
    | ok fs' =>
      have hkeep := processTarget_preserves h1 q hq1
      rw [ih fs' hq2, hkeep]

/-- Toggling the progress observer changes neither the resulting
filesystem nor the error outcome of the download stage. -/
theorem downloadAll_show_progress_eq (net : String → Option Nat)
    (ts : List RetrievalTarget) (fs : FS) :
    (downloadAll net true ts fs).1 = (downloadAll net false ts fs).1 ∧
    (downloadAll net true ts fs).2.2 = (downloadAll net false ts fs).2.2 := by
  induction ts generalizing fs with
  | nil => exact ⟨rfl, rfl⟩
  | cons t ts ih =>
    have hpt : (processTarget net true fs t).1 = (processTarget net false fs t).1 := by
      rw [processTarget, processTarget]
      cases pathStatus fs t.destPath with
      | regularFile hsh => by_cases he : hsh = t.expectedHash <;> simp [he]
      | absent =>
        cases net t.url with
        | none => rfl
        | some hsh => by_cases he : hsh = t.expectedHash <;> simp [he]
      | directory => rfl
      | otherKind => rfl
    simp only [downloadAll]
    rcases h1 : processTarget net true fs t with ⟨r1, ev1⟩
    rcases h2 : processTarget net false fs t with ⟨r2, ev2⟩
    have hr : r1 = r2 := by
      rw [h1, h2] at hpt
      exact hpt
    subst hr
    cases r1 with
    | error e => exact ⟨rfl, rfl⟩
    | ok fs' =>
      have hrec := ih fs'
      refine ⟨?_, ?_⟩
      · simpa using hrec.1
      · simpa using hrec.2

/-- Claim C4: the bunnfo dependency-listing operation prints the resolved
dependency order of the given base bundle, one bundle name per printed
line (one list element per dependency), and is read-only: the filesystem
afterwards is exactly the filesystem before and nothing else happens. -/
theorem C4_bunnfo_deps_readonly (net : String → Option Nat) (bundle : ConfigBundle)
    (fs : FS) :
    main net (ParsedArgs.bunnfoDeps bundle) fs
      = (MainOutcome.ok bundle.get_dependencies, fs) ∧
    bundle.get_dependencies = bundle.depOrder :=
  ⟨rfl, rfl⟩

/-- Claim C7 (counter-evidence): `_add_subdom` never installs a callback
via `set_defaults`, so every subdom invocation of `main` raises an
uncaught `AttributeError` and performs no substitution at all — the
filesystem is returned untouched, whatever scope was selected.  This
contradicts the subdom parser's own help text, which promises domain
substitution over the buildspace tree and/or the bundle's patches. -/
theorem C7_subdom_never_substitutes (net : String → Option Nat)
    (bundle : ConfigBundle) (only : Option String) (fs : FS) :
    callbackOf net (ParsedArgs.subdom bundle only) = none ∧
    main net (ParsedArgs.subdom bundle only) fs
      = (MainOutcome.uncaught "AttributeError", fs) :=
  ⟨rfl, rfl⟩

/-- Claim C8: `_add_prubin`, `_add_subdom` and `_add_genpkg` never call
`set_defaults` with a callback, so for their subcommands the parsed
namespace has no `callback` attribute and `main`'s `args.callback` lookup
raises an uncaught `AttributeError`: these commands never perform
pruning, substitution or packaging-script generation and never exit
cleanly. -/
theorem C8_missing_callbacks (net : String → Option Nat) (args : ParsedArgs) (fs : FS)
    (h : args.command = "prubin" ∨ args.command = "subdom" ∨ args.command = "genpkg") :
    callbackOf net args = none ∧
    main net args fs = (MainOutcome.uncaught "AttributeError", fs) := by
  cases args with
  | bunnfoDeps b => rcases h with h | h | h <;> simp [ParsedArgs.command] at h
  | genbun a b => rcases h with h | h | h <;> simp [ParsedArgs.command] at h
  | getsrc a b c d e => rcases h with h | h | h <;> simp [ParsedArgs.command] at h
  | prubin b => exact ⟨rfl, rfl⟩
  | subdom b o => exact ⟨rfl, rfl⟩
  | genpkg b o => exact ⟨rfl, rfl⟩

theorem C8_missing_callbacks_witness :
    ((ParsedArgs.prubin bundle0).command = "prubin" ∨
      (ParsedArgs.prubin bundle0).command = "subdom" ∨
      (ParsedArgs.prubin bundle0).command = "genpkg") ∧
    (callbackOf net0 (ParsedArgs.prubin bundle0) = none ∧
      main net0 (ParsedArgs.prubin bundle0) []
        = (MainOutcome.uncaught "AttributeError", [])) :=
  ⟨Or.inl rfl, C8_missing_callbacks net0 (ParsedArgs.prubin bundle0) [] (Or.inl rfl)⟩

/-- Claim C3: genbun with an existing output path fails with the
already-exists error naming that path, logs a message naming the path,
exits with status 1 and leaves the filesystem untouched (never silently
overwrites); with a free path but invalid base-bundle metadata it fails
with the base-bundle `ValueError` and writes no output. -/
theorem C3_genbun_errors (net : String → Option Nat) (base_bundle : ConfigBundle)
    (path : String) (fs : FS) :
    (pathStatus fs path ≠ PathStatus.absent →
      ConfigBundle.write base_bundle path fs
          = (Except.error (PyError.fileExists path), fs) ∧
      main net (ParsedArgs.genbun path base_bundle) fs
          = (MainOutcome.exit1 ["User bundle already exists: " ++ path], fs)) ∧
    (pathStatus fs path = PathStatus.absent → base_bundle.metaValid = false →
      ConfigBundle.write base_bundle path fs
          = (Except.error
              (PyError.valueError "base bundle metadata constraint violated"), fs) ∧
      main net (ParsedArgs.genbun path base_bundle) fs
          = (MainOutcome.exit1
              ["Error with base bundle: " ++ "base bundle metadata constraint violated"],
             fs)) := by
  constructor
  · intro hex
    have hw : ConfigBundle.write base_bundle path fs
        = (Except.error (PyError.fileExists path), fs) := by
      rw [ConfigBundle.write, if_pos hex]
    refine ⟨hw, ?_⟩
    simp only [main, callbackOf, genbun_callback, hw, if_true]
  · intro hfree hbad
    have hw : ConfigBundle.write base_bundle path fs
        = (Except.error
            (PyError.valueError "base bundle metadata constraint violated"), fs) := by
      simp [ConfigBundle.write, hfree, hbad]
    refine ⟨hw, ?_⟩
    simp only [main, callbackOf, genbun_callback, hw, if_true]

theorem C3_genbun_errors_witness :
    pathStatus fs3 "buildspace/user_bundle" ≠ PathStatus.absent ∧
    (ConfigBundle.write bundle0 "buildspace/user_bundle" fs3
        = (Except.error (PyError.fileExists "buildspace/user_bundle"), fs3) ∧
      main net0 (ParsedArgs.genbun "buildspace/user_bundle" bundle0) fs3
        = (MainOutcome.exit1
            ["User bundle already exists: " ++ "buildspace/user_bundle"], fs3)) :=
  ⟨by decide,
    (C3_genbun_errors net0 bundle0 "buildspace/user_bundle" fs3).1 (by decide)⟩

/-- Claim C2: getsrc checks its filesystem preconditions before
retrieving anything.  With the downloads directory present, an existing
tree path fails with the tree-already-exists error and the CLI logs a
message naming the tree path; a missing downloads directory fails with
the file-not-found error naming the downloads path; a downloads path that
is not a directory (a regular file or any other kind) fails with the
not-a-directory error naming the downloads path.  In every case the
operation aborts with exit status 1 and no retrieval is performed: the
filesystem is unchanged, no events fire and no stage runs. -/
theorem C2_getsrc_preconditions (net : String → Option Nat) (bundle : ConfigBundle)
    (downloads tree : String) (pr sp : Bool) (fs : FS) :
    (pathStatus fs downloads = PathStatus.directory →
      pathStatus fs tree ≠ PathStatus.absent →
      retrieve_and_extract bundle downloads tree pr sp net fs
          = ⟨Except.error (PyError.fileExists tree), fs, [], []⟩ ∧
      main net (ParsedArgs.getsrc bundle tree downloads pr sp) fs
          = (MainOutcome.exit1 ["Buildspace tree already exists: " ++ tree], fs)) ∧
    (pathStatus fs downloads = PathStatus.absent →
      retrieve_and_extract bundle downloads tree pr sp net fs
          = ⟨Except.error (PyError.fileNotFound downloads), fs, [], []⟩ ∧
      main net (ParsedArgs.getsrc bundle tree downloads pr sp) fs
          = (MainOutcome.exit1 ["Buildspace downloads does not exist: " ++ downloads], fs)) ∧
    (∀ hsh, pathStatus fs downloads = PathStatus.regularFile hsh →
      retrieve_and_extract bundle downloads tree pr sp net fs
          = ⟨Except.error (PyError.notADirectory downloads), fs, [], []⟩ ∧
      main net (ParsedArgs.getsrc bundle tree downloads pr sp) fs
          = (MainOutcome.exit1
              ["Buildspace downloads is not a directory: " ++ downloads], fs)) ∧
    (pathStatus fs downloads = PathStatus.otherKind →
      retrieve_and_extract bundle downloads tree pr sp net fs
          = ⟨Except.error (PyError.notADirectory downloads), fs, [], []⟩ ∧
      main net (ParsedArgs.getsrc bundle tree downloads pr sp) fs
          = (MainOutcome.exit1
              ["Buildspace downloads is not a directory: " ++ downloads], fs)) := by
  refine ⟨?_, ?_, ?_, ?_⟩
  · intro hdir htree
    have hre : retrieve_and_extract bundle downloads tree pr sp net fs
        = ⟨Except.error (PyError.fileExists tree), fs, [], []⟩ := by
      rw [retrieve_and_extract]
      simp only [hdir, if_neg htree]
    refine ⟨hre, ?_⟩
    simp only [main, callbackOf, getsrc_callback, hre, if_true]
  · intro habs
    have hre : retrieve_and_extract bundle downloads tree pr sp net fs
        = ⟨Except.error (PyError.fileNotFound downloads), fs, [], []⟩ := by
      rw [retrieve_and_extract]
      simp only [habs]
    refine ⟨hre, ?_⟩
    simp only [main, callbackOf, getsrc_callback, hre, if_true]
  · intro hsh hreg
    have hre : retrieve_and_extract bundle downloads tree pr sp net fs
        = ⟨Except.error (PyError.notADirectory downloads), fs, [], []⟩ := by
      rw [retrieve_and_extract]
      simp only [hreg]
    refine ⟨hre, ?_⟩
    simp only [main, callbackOf, getsrc_callback, hre, if_true]
  · intro hoth
    have hre : retrieve_and_extract bundle downloads tree pr sp net fs
        = ⟨Except.error (PyError.notADirectory downloads), fs, [], []⟩ := by
      rw [retrieve_and_extract]
      simp only [hoth]
    refine ⟨hre, ?_⟩
    simp only [main, callbackOf, getsrc_callback, hre, if_true]

theorem C2_getsrc_preconditions_witness :
    pathStatus fs2 "buildspace/downloads" = PathStatus.directory ∧
    pathStatus fs2 "buildspace/tree" ≠ PathStatus.absent ∧
    (retrieve_and_extract bundle0 "buildspace/downloads" "buildspace/tree" true true net0 fs2
        = ⟨Except.error (PyError.fileExists "buildspace/tree"), fs2, [], []⟩ ∧
      main net0 (ParsedArgs.getsrc bundle0 "buildspace/tree" "buildspace/downloads" true true) fs2
        = (MainOutcome.exit1 ["Buildspace tree already exists: " ++ "buildspace/tree"], fs2)) :=
  ⟨by decide, by decide,
    (C2_getsrc_preconditions net0 bundle0 "buildspace/downloads" "buildspace/tree"
        true true fs2).1 (by decide) (by decide)⟩

/-- Claim C5: every configuration error raised while loading a base
bundle — an unknown bundle name or malformed metadata — is fatal to the
operation: the argparse action exits the process with status 1 (it is
invoked exactly once, never retried) and the logged report names the
offending bundle. -/
theorem C5_config_errors_fatal (store : BundleStore) (name : String) (e : FromBaseErr)
    (h : from_base_name store name = Except.error e) :
    (∀ n, e = FromBaseErr.unknownBundle n →
      ∃ m, newBaseBundleAction store name = Except.error (1, m) ∧ strNames m name) ∧
    (∀ b d, e = FromBaseErr.metadataIssue b d →
      ∃ m, newBaseBundleAction store name = Except.error (1, m) ∧ strNames m b) := by
  constructor
  · rintro n rfl
    refine ⟨"The base config bundle \"" ++ name ++ "\" does not exist.", ?_, ?_⟩
    · rw [newBaseBundleAction, h]
      rfl
    · exact ⟨"The base config bundle \"", "\" does not exist.",
        String.append_assoc _ name _⟩
  · rintro b d rfl
    refine ⟨"Base bundle metadata has an issue: " ++ ("bundle " ++ (b ++ (": " ++ d))),
      ?_, ?_⟩
    · rw [newBaseBundleAction, h]
      rfl
    · refine ⟨"Base bundle metadata has an issue: " ++ "bundle ", ": " ++ d, ?_⟩
      rw [String.append_assoc]

theorem C5_config_errors_fatal_witness :
    from_base_name storeBroken "broken"
        = Except.error (FromBaseErr.metadataIssue "broken" "malformed metadata") ∧
    (∃ m, newBaseBundleAction storeBroken "broken" = Except.error (1, m) ∧
      strNames m "broken") :=
  ⟨by decide,
    (C5_config_errors_fatal storeBroken "broken"
        (FromBaseErr.metadataIssue "broken" "malformed metadata") (by decide)).2
      "broken" "malformed metadata" rfl⟩

/-- Claim C6: the show-progress option is only the observer toggle.  For
every bundle, downloads directory, tree path and pruning choice, running
getsrc with progress reporting enabled and disabled yields the same
retrieval result, the same final filesystem and the same pipeline stages
(only the observer events may differ), and `main` returns the identical
outcome either way. -/
theorem C6_show_progress_observer_only (net : String → Option Nat)
    (bundle : ConfigBundle) (downloads tree : String) (pr : Bool) (fs : FS) :
    (retrieve_and_extract bundle downloads tree pr true net fs).result
        = (retrieve_and_extract bundle downloads tree pr false net fs).result ∧
    (retrieve_and_extract bundle downloads tree pr true net fs).fs
        = (retrieve_and_extract bundle downloads tree pr false net fs).fs ∧
    (retrieve_and_extract bundle downloads tree pr true net fs).stages
        = (retrieve_and_extract bundle downloads tree pr false net fs).stages ∧
    main net (ParsedArgs.getsrc bundle tree downloads pr true) fs
        = main net (ParsedArgs.getsrc bundle tree downloads pr false) fs := by
  have hdl := downloadAll_show_progress_eq net bundle.targets fs
  have key : (retrieve_and_extract bundle downloads tree pr true net fs).result
        = (retrieve_and_extract bundle downloads tree pr false net fs).result ∧
      (retrieve_and_extract bundle downloads tree pr true net fs).fs
        = (retrieve_and_extract bundle downloads tree pr false net fs).fs ∧
      (retrieve_and_extract bundle downloads tree pr true net fs).stages
        = (retrieve_and_extract bundle downloads tree pr false net fs).stages := by
    rw [retrieve_and_extract, retrieve_and_extract]
    cases hd : pathStatus fs downloads
    case absent => exact ⟨rfl, rfl, rfl⟩
    case regularFile hsh => exact ⟨rfl, rfl, rfl⟩
    case otherKind => exact ⟨rfl, rfl, rfl⟩
    case directory =>
      by_cases ht : pathStatus fs tree = PathStatus.absent
      · simp only [if_pos ht]
        rcases h1 : downloadAll net true bundle.targets fs with ⟨fs1, ev1, res1⟩
        rcases h0 : downloadAll net false bundle.targets fs with ⟨fs0, ev0, res0⟩
        rw [h1, h0] at hdl
        simp only at hdl
        rcases hdl with ⟨rfl, rfl⟩
        cases res1 with
        | none => exact ⟨rfl, rfl, rfl⟩
        | some e => exact ⟨rfl, rfl, rfl⟩
      · simp only [if_neg ht]
        exact ⟨trivial, trivial, trivial⟩
  have hcb : getsrc_callback bundle downloads tree pr true net fs
      = getsrc_callback bundle downloads tree pr false net fs := by
    simp only [getsrc_callback]
    rw [key.1, key.2.1]
  refine ⟨key.1, key.2.1, key.2.2, ?_⟩
  simp only [main, callbackOf]
  rw [hcb]

/-- Claim C1: when every precondition holds but some target fails
verification — a hash mismatch or a destination that is not a regular
file — the whole pipeline aborts with that typed error before any
extraction begins (no stage runs, the tree is never created), and the CLI
translates the error into one logged user-facing message naming the
offending path together with process exit status 1, looking only at the
exception type. -/
theorem C1_getsrc_integrity_errors (net : String → Option Nat) (bundle : ConfigBundle)
    (downloads tree : String) (pr sp : Bool) (fs : FS) (p : String) (e : PyError)
    (hdir : pathStatus fs downloads = PathStatus.directory)
    (htree : pathStatus fs tree = PathStatus.absent)
    (herr : (downloadAll net sp bundle.targets fs).2.2 = some e)
    (hkind : e = PyError.hashMismatch p ∨ e = PyError.notAFile p)
    (hsep : ∀ t ∈ bundle.targets, t.destPath ≠ tree) :
    (retrieve_and_extract bundle downloads tree pr sp net fs).result = Except.error e ∧
    (retrieve_and_extract bundle downloads tree pr sp net fs).stages = [] ∧
    pathStatus (retrieve_and_extract bundle downloads tree pr sp net fs).fs tree
        = PathStatus.absent ∧
    (∃ msg, main net (ParsedArgs.getsrc bundle tree downloads pr sp) fs
        = (MainOutcome.exit1 [msg],
            (retrieve_and_extract bundle downloads tree pr sp net fs).fs) ∧
      strNames msg p) := by
  rcases hD : downloadAll net sp bundle.targets fs with ⟨fs', evs, res⟩
  rw [hD] at herr
  simp only at herr
  subst herr
  have hre : retrieve_and_extract bundle downloads tree pr sp net fs
      = ⟨Except.error e, fs', evs, []⟩ := by
    rw [retrieve_and_extract]
    simp only [hdir, if_pos htree, hD]
  have hfs' : pathStatus fs' tree = PathStatus.absent := by
    have hpres := downloadAll_preserves net sp bundle.targets fs tree hsep
    rw [hD] at hpres
    simp only at hpres
    rw [hpres]
    exact htree
  refine ⟨by rw [hre], by rw [hre], ?_, ?_⟩
  · rw [hre]
    exact hfs'
  · rcases hkind with rfl | rfl
    · refine ⟨"Archive checksum is invalid: " ++ p, ?_, ?_⟩
      · simp only [main, callbackOf, getsrc_callback, hre, if_true]
      · exact ⟨"Archive checksum is invalid: ", "", by rw [String.append_empty]⟩
    · refine ⟨"Archive path is not a regular file: " ++ p, ?_, ?_⟩
      · simp only [main, callbackOf, getsrc_callback, hre, if_true]
      · exact ⟨"Archive path is not a regular file: ", "", by rw [String.append_empty]⟩

theorem C1_getsrc_integrity_errors_witness :
    pathStatus fs1 "buildspace/downloads" = PathStatus.directory ∧
    pathStatus fs1 "buildspace/tree" = PathStatus.absent ∧
    (downloadAll net0 true bundle1.targets fs1).2.2
        = some (PyError.hashMismatch "buildspace/downloads/a.tar.xz") ∧
    (∀ t ∈ bundle1.targets, t.destPath ≠ "buildspace/tree") ∧
    ((retrieve_and_extract bundle1 "buildspace/downloads" "buildspace/tree"
          true true net0 fs1).result
        = Except.error (PyError.hashMismatch "buildspace/downloads/a.tar.xz") ∧
      (retrieve_and_extract bundle1 "buildspace/downloads" "buildspace/tree"
          true true net0 fs1).stages = [] ∧
      pathStatus (retrieve_and_extract bundle1 "buildspace/downloads" "buildspace/tree"
          true true net0 fs1).fs "buildspace/tree" = PathStatus.absent ∧
      (∃ msg, main net0
            (ParsedArgs.getsrc bundle1 "buildspace/tree" "buildspace/downloads" true true)
            fs1
          = (MainOutcome.exit1 [msg],
              (retrieve_and_extract bundle1 "buildspace/downloads" "buildspace/tree"
                true true net0 fs1).fs) ∧
        strNames msg "buildspace/downloads/a.tar.xz")) :=
  ⟨by decide, by decide, by decide, by decide,
    C1_getsrc_integrity_errors net0 bundle1 "buildspace/downloads" "buildspace/tree"
      true true fs1 "buildspace/downloads/a.tar.xz"
      (PyError.hashMismatch "buildspace/downloads/a.tar.xz")
      (by decide) (by decide) (by decide) (Or.inl rfl) (by decide)⟩

end UC
